import Mathlib

/-!
Shallow embedding of the earthkit-data excerpts under verification:

* `src/src/earthkit/data/sources/array_list.py` — the `ArrayField` class and
  the `from_array` reverse field builder;
* `src/earthkit/data/readers/netcdf/field.py` — `XArrayFieldGeography`,
  `XArrayMetadata` (with `NetCDFMetadata` as an alias) and `XArrayField`.

Python values stored in metadata dictionaries are modelled by the inductive
`Value`; Python dicts (insertion ordered, first occurrence updated in place)
by association lists; Python exceptions by `Except Err`; datetimes by integer
POSIX timestamps in seconds, with explicit civil calendar formatting for the
strftime calls the source performs.
-/

set_option autoImplicit false

/-- A Python scalar value as stored in the metadata dictionaries of the
source: an integer, a string, or `None`. -/
inductive Value where
  | vInt (i : Int)
  | vStr (s : String)
  | vNone
  deriving DecidableEq, Repr

/-- A Python dict with string keys, modelled as an insertion-ordered
association list. -/
abbrev Dict := List (String × Value)

/-- Lookup in an association list: the first pair whose key matches. -/
def alistGet {β : Type} : List (String × β) → String → Option β
  | [], _ => none
  | (k0, v) :: rest, k => if k0 = k then some v else alistGet rest k

/-- Python dict lookup `d[k]` / `d.get(k)`. -/
def dictGet (d : Dict) (k : String) : Option Value :=
  alistGet d k

/-- Python dict assignment `d[k] = v`: update the first occurrence of the key
in place, otherwise append the pair at the end (insertion order). -/
def dictSet : Dict → String → Value → Dict
  | [], k, v => [(k, v)]
  | (k0, v0) :: rest, k, v =>
      if k0 = k then (k0, v) :: rest else (k0, v0) :: dictSet rest k v

/-- The Python exceptions raised by the embedded code. -/
inductive Err where
  | typeError (msg : String)
  | valueError (msg : String)
  | keyError (msg : String)
  | attributeError (msg : String)
  | assertionError
  | indexError
  deriving DecidableEq, Repr

/-! ## array_list.py : arrays, ArrayField and from_array -/

/-- A dense N-dimensional array: a scalar, or a list of sub-arrays along the
leading axis.  Mirrors the small array interface `from_array` consumes:
shape introspection, iteration over the leading axis, and `stack`. -/
inductive Arr where
  | scalar (x : Int)
  | nd (elems : List Arr)

/-- The shape tuple of an array (`array.shape`); as in the dense-array
backend, trailing dimensions are read off the first element (an array with an
empty leading axis keeps no trailing dimensions in this model). -/
def Arr.shape : Arr → List Nat
  | .scalar _ => []
  | .nd [] => [0]
  | .nd (a :: rest) => (rest.length + 1) :: a.shape

/-- Iterating over an array (`for a in array`) yields its leading-axis
elements. -/
def Arr.leading : Arr → List Arr
  | .scalar _ => []
  | .nd elems => elems

/-- `array_ns.stack([a])`: a new array with a fresh leading axis of size 1. -/
def stackOne (a : Arr) : Arr := .nd [a]

/-- The slice of a metadata object `from_array` consumes: its entries and the
shape declared by its geography (`metadata.geography.shape()`).  The
`internal` field lists the keys marked hidden/internal on this metadata. -/
structure AMeta where
  gshape : List Nat
  entries : Dict
  internal : List String
  deriving DecidableEq, Repr

/-- Modelled from the spec: any metadata marked with hidden/internal keys has
those stripped before attachment (`metadata._hide_internal_keys()`, whose
implementation lives outside the provided sources). -/
def AMeta.hideInternalKeys (m : AMeta) : AMeta :=
  { m with entries := m.entries.filter (fun p => ¬ p.1 ∈ m.internal) }

/-- `ArrayField`: a field consisting of an array and a metadata object.  The
constructor stores the array and the metadata with its internal keys
hidden (a `None` metadata is kept as such). -/
structure ArrayField where
  array : Arr
  metadata : Option AMeta

/-- `ArrayField(array, metadata)` for an actual metadata object. -/
def mkArrayField (a : Arr) (m : AMeta) : ArrayField :=
  ⟨a, some m.hideInternalKeys⟩

/-- `ArrayField._values()` with the default dtype: the stored array. -/
def ArrayField.values (f : ArrayField) : Arr := f.array

/-- `_shape_match(shape1, shape2)` from `from_array`. -/
def shape_match (shape1 shape2 : List Nat) : Bool :=
  shape1 == shape2 || (shape1.length == 1 && shape1.headD 0 == shape2.prod)

/-- The `array` argument of `from_array`: a Python list of arrays, a single
supported array, or an object of an unsupported type (for which
`array_namespace` returns `None`). -/
inductive ArrInput where
  | arr (a : Arr)
  | list (l : List Arr)
  | other (t : String)

/-- The `metadata` argument of `from_array`: a single metadata object or a
list of them. -/
inductive MetaInput where
  | one (m : AMeta)
  | many (ms : List AMeta)

/-- `if not isinstance(metadata, list): metadata = [metadata]`. -/
def metaToList : MetaInput → List AMeta
  | .one m => [m]
  | .many ms => ms

/-- Junk metadata used only as the default of guarded list indexing. -/
def dfltAMeta : AMeta := ⟨[], [], []⟩

/-- The metadata paired with the field at position `i` in the build loop of
`from_array`: `metadata[0]` when the metadata list is a singleton, otherwise
`metadata[i]`. -/
def pickMeta (md : List AMeta) (i : Nat) : AMeta :=
  if md.length = 1 then md.getD 0 dfltAMeta else md.getD i dfltAMeta

/-- The field-building loop of `from_array`
(`for i, a in enumerate(array): fields.append(ArrayField(a, ...))`). -/
def buildFields (md : List AMeta) : Nat → List Arr → List ArrayField
  | _, [] => []
  | i, a :: rest => mkArrayField a (pickMeta md i) :: buildFields md (i + 1) rest

/-- Error message of the single-array leading-dimension mismatch. -/
def dimMismatchMsg (n k : Nat) : String :=
  s!"first array dimension={n} differs from number of metadata objects={k}"

/-- Error message of the list-length mismatch. -/
def lenMismatchMsg (n k : Nat) : String :=
  s!"array len=({n}) differs from number of metadata objects=({k})"

/-- `from_array(array, metadata)`: builds the list of fields wrapped by the
returned `SimpleFieldList` (the field collection is its ordered field
list). -/
def from_array (array : ArrInput) (metadata : MetaInput) : Except Err (List ArrayField) :=
  let md := metaToList metadata
  match array with
  | .list l =>
      if l.length = 0 then
        .error (.valueError "array must not be empty")
      else if l.length ≠ md.length then
        .error (.valueError (lenMismatchMsg l.length md.length))
      else
        .ok (buildFields md 0 l)
  | .other t =>
      .error (.valueError s!"array type {t} is not supported")
  | .arr a =>
      match a.shape.head? with
      | none => .error .indexError
      | some n =>
          if n ≠ md.length then
            if md.length = 1 ∧ shape_match a.shape (md.getD 0 dfltAMeta).gshape = true then
              .ok (buildFields md 0 (stackOne a).leading)
            else
              .error (.valueError (dimMismatchMsg n md.length))
          else
            .ok (buildFields md 0 a.leading)

/-! ## readers/netcdf/field.py : data model -/

/-- Modelled from the spec: a dimension-position descriptor attached to a
field (module `coords`, outside the provided sources): a plain slice, a time
slice whose value is a timestamp, or a level slice whose value is a numeric
level and whose name denotes the level type. -/
inductive Slice where
  | plain (name : String) (value : Value)
  | time (value : Int)
  | level (name : String) (value : Value)
  deriving DecidableEq, Repr

/-- An xarray data array as consumed by the embedded code: only its attribute
dictionary is inspected. -/
structure DataArray where
  attrs : Dict
  deriving DecidableEq, Repr

/-- An xarray dataset as consumed by the embedded code: variable lookup by
name, the scalar data of the `forecast_reference_time` data variable when the
dataset has one, and the per-variable bounding box the dataset computes
(`ds.bbox(variable)`, returning the `(north, west, south, east)` scalar
extrema; its implementation lives outside the provided sources, so the table
is modelled from the spec). Coordinate scalars are modelled as integers; no
claim depends on their arithmetic. -/
structure Dataset where
  vars : List (String × DataArray)
  frtData : Option Int
  bboxTbl : List (String × (Int × Int × Int × Int))
  deriving DecidableEq, Repr

/-- `ds.bbox(variable)`. -/
def dsBbox (ds : Dataset) (v : String) : Int × Int × Int × Int :=
  (alistGet ds.bboxTbl v).getD (0, 0, 0, 0)

/-- `XArrayField`: wraps a dataset, a variable name (`variable` is a reserved
word in Lean, hence `varName`), the slices pinning the field, and the
non-dimension coordinates (only the timestamps under `valid_time` / `time`
are ever read).  The constructor caches `self._da = ds[variable]`; the model
stores the cached data array directly.  The base class exposes the dataset as
`field.ds` as well. -/
structure XArrayField where
  _ds : Dataset
  _da : DataArray
  varName : String
  slices : List Slice
  non_dim_coords : List (String × Int)
  deriving DecidableEq, Repr

/-- The `field.ds` accessor used at field.py line 106. -/
def XArrayField.ds (f : XArrayField) : Dataset := f._ds

/-- `XArrayFieldGeography`: per-field geometry.  The stored metadata back
reference is omitted (none of the embedded operations reads it, and it would
make the data model cyclic). -/
structure XArrayFieldGeography where
  data_array : DataArray
  ds : Dataset
  north : Int
  west : Int
  south : Int
  east : Int
  deriving DecidableEq, Repr

/-- `XArrayFieldGeography(metadata, data_array, ds, variable)`: stores the
arguments and unpacks `ds.bbox(variable)` into north/west/south/east. -/
def XArrayFieldGeography.make (f : XArrayField) : XArrayFieldGeography :=
  let b := dsBbox f._ds f.varName
  { data_array := f._da, ds := f._ds,
    north := b.1, west := b.2.1, south := b.2.2.1, east := b.2.2.2 }

/-- Error message raised by `_grid_mapping` when the attribute is absent. -/
def gridMappingErrMsg : String :=
  "no CF-compliant grid_mapping detected in netCDF attributes"

/-- `XArrayFieldGeography._grid_mapping()`: the dataset variable named by the
`grid_mapping` attribute of the data array; an attribute error when the data
array has no such attribute (a key error models the dataset lookup failing
for a bad attribute value). -/
def XArrayFieldGeography.grid_mapping (g : XArrayFieldGeography) : Except Err DataArray :=
  match dictGet g.data_array.attrs "grid_mapping" with
  | none => .error (.attributeError gridMappingErrMsg)
  | some (.vStr name) =>
      match alistGet g.ds.vars name with
      | some da => .ok da
      | none => .error (.keyError name)
  | some _ => .error (.keyError "grid_mapping attribute is not a variable name")

/-- Modelled from the spec: a projection descriptor parsed from grid-mapping
attributes (`Projection.from_cf_grid_mapping(**attrs)`, outside the provided
sources, keyword arguments modelled as the attribute dictionary). -/
structure Projection where
  cfAttrs : Dict
  deriving DecidableEq, Repr

/-- `Projection.from_cf_grid_mapping(**kwargs)`. -/
def Projection.from_cf_grid_mapping (kwargs : Dict) : Projection :=
  ⟨kwargs⟩

/-- `XArrayFieldGeography.projection()`. -/
def XArrayFieldGeography.projection (g : XArrayFieldGeography) : Except Err Projection :=
  (g.grid_mapping).map (fun gm => Projection.from_cf_grid_mapping gm.attrs)

/-- Modelled from the spec: computing the projection of every field of a
collection, each from its own Geography, independently of the others. -/
def projections (gs : List XArrayFieldGeography) : List (Except Err Projection) :=
  gs.map XArrayFieldGeography.projection

/-! ### Datetime helpers

Datetimes are POSIX timestamps in whole seconds.  `date.strftime("%Y%m%d")`
and `date.strftime("%H%M")` are computed through the standard civil-calendar
conversion from days since the epoch. -/

/-- Civil date `(year, month, day)` of a count of days since 1970-01-01. -/
def civilFromDays (z0 : Int) : Int × Int × Int :=
  let z := z0 + 719468
  let era := z.fdiv 146097
  let doe := z - era * 146097
  let yoe := (doe - doe / 1460 + doe / 36524 - doe / 146096) / 365
  let y := yoe + era * 400
  let doy := doe - (365 * yoe + yoe / 4 - yoe / 100)
  let mp := (5 * doy + 2) / 153
  let d := doy - (153 * mp + 2) / 5 + 1
  let m := mp + (if mp < 10 then 3 else -9)
  (y + (if m ≤ 2 then 1 else 0), m, d)

/-- `int(date.strftime("%Y%m%d"))` on a timestamp. -/
def yyyymmdd (t : Int) : Int :=
  let c := civilFromDays (t.fdiv 86400)
  c.1 * 10000 + c.2.1 * 100 + c.2.2

/-- `int(date.strftime("%H%M"))` on a timestamp. -/
def hhmm (t : Int) : Int :=
  let sod := t % 86400
  (sod / 3600) * 100 + (sod % 3600) / 60

/-- Modelled from the spec: `to_datetime` (module `utils.dates`, outside the
provided sources) converts a timestamp-like value to a datetime; on the
integer-timestamp embedding it is the identity. -/
def to_datetime (t : Int) : Int := t

/-! ### XArrayMetadata -/

/-- `XArrayMetadata`: the insertion-ordered mapping `d` handed to
`RawMetadata.__init__`, the `self.time` attribute, the wrapped field and the
memoized geography. -/
structure XArrayMetadata where
  d : Dict
  time : Option Int
  _field : XArrayField
  _geo : Option XArrayFieldGeography
  deriving DecidableEq, Repr

/-- The argument of `XArrayMetadata.__init__`: an `XArrayField` (also any
subclass such as `NetCDFField`), or a value of any other type, carried with
its type name for the error message. -/
inductive FieldInput where
  | xarray (f : XArrayField)
  | other (typeName : String)
  deriving DecidableEq, Repr

/-- The level-type renaming `{"pressure": "pl"}.get(s.name, s.name)`. -/
def mapLevName (nm : String) : String :=
  if nm = "pressure" then "pl" else nm

/-- The slice loop of `XArrayMetadata.__init__`: a `TimeSlice` overwrites the
running time, a `LevelSlice` overwrites the running level value and level
type. -/
def applySlices : Option Int × Value × String → List Slice → Option Int × Value × String
  | acc, [] => acc
  | (t, l, lt), .time v :: rest => applySlices (some v, l, lt) rest
  | (t, l, _), .level nm v :: rest => applySlices (t, v, mapLevName nm) rest
  | (t, l, lt), .plain _ _ :: rest => applySlices (t, l, lt) rest

/-- The last level slice of a slice list, if any: the one whose value and
name survive the slice loop. -/
def lastLevel : List Slice → Option (String × Value)
  | [] => none
  | .level nm v :: rest => some ((lastLevel rest).getD (nm, v))
  | .time _ :: rest => lastLevel rest
  | .plain _ _ :: rest => lastLevel rest

/-- `field.non_dim_coords.get("valid_time", field.non_dim_coords.get("time"))`. -/
def initTime (f : XArrayField) : Option Int :=
  match alistGet f.non_dim_coords "valid_time" with
  | some t => some t
  | none => alistGet f.non_dim_coords "time"

/-- The dictionary updates every successful path of `__init__` performs last:
`d["variable"] = ...; d["level"] = level; d["levtype"] = level_type`. -/
def mkDictFinal (d : Dict) (varName : String) (level : Value) (ltype : String) : Dict :=
  dictSet (dictSet (dictSet d "variable" (.vStr varName)) "level" level)
    "levtype" (.vStr ltype)

/-- Error message of the `isinstance` guard of `XArrayMetadata.__init__`. -/
def typeErrMsg (t : String) : String :=
  s!"XArrayMetadata: expected field type XArrayField, got {t}"

/-- `XArrayMetadata.__init__` (also `NetCDFMetadata.__init__`, inherited
unchanged): a type error on a non-`XArrayField` argument, otherwise the
constructed metadata; an assertion error when the step seconds derived from
`forecast_reference_time` are not a whole number of hours. -/
def XArrayMetadata.mk? (inp : FieldInput) : Except Err XArrayMetadata :=
  match inp with
  | .other t => .error (.typeError (typeErrMsg t))
  | .xarray f =>
      let d0 := f._da.attrs
      let tlv := applySlices (initTime f, Value.vNone, "sfc") f.slices
      match tlv.1 with
      | none =>
          .ok ⟨mkDictFinal d0 f.varName tlv.2.1 tlv.2.2, none, f, none⟩
      | some t =>
          let st := to_datetime t
          match f.ds.frtData with
          | none =>
              let date := st - 3600 * 0
              .ok ⟨mkDictFinal
                    (dictSet (dictSet d0 "date" (.vInt (yyyymmdd date)))
                      "time" (.vInt (hhmm date)))
                    f.varName tlv.2.1 tlv.2.2,
                  some st, f, none⟩
          | some frt =>
              if (t - frt) % 3600 = 0 then
                let step := (t - frt).fdiv 3600
                let date := st - 3600 * step
                .ok ⟨mkDictFinal
                      (dictSet
                        (dictSet (dictSet d0 "step" (.vInt step))
                          "date" (.vInt (yyyymmdd date)))
                        "time" (.vInt (hhmm date)))
                      f.varName tlv.2.1 tlv.2.2,
                    some st, f, none⟩
              else .error .assertionError

/-- `NetCDFMetadata` inherits everything from `XArrayMetadata` unchanged. -/
abbrev NetCDFMetadata := XArrayMetadata

/-- The `MARS_KEYS` class attribute. -/
def MARS_KEYS : List String :=
  ["param", "step", "levelist", "levtype", "number", "date", "time"]

/-- The `_key_name` renaming inside `XArrayMetadata._get`. -/
def keyName (key : String) : String :=
  if key = "param" then "variable" else if key = "levelist" then "level" else key

/-- Modelled from the spec: `RawMetadata._get` (class outside the provided
sources) looks the key up in the ordered mapping and, when it is absent,
returns the caller-supplied default or raises a key error if
`raise_on_missing` was requested. -/
def rawGet (d : Dict) (key : String) (raiseOnMissing : Bool) (default : Value) :
    Except Err Value :=
  match dictGet d key with
  | some v => .ok v
  | none => if raiseOnMissing then .error (.keyError key) else .ok default

/-- `XArrayMetadata._get(key, **kwargs)`: strips a `mars.` prefix (rejecting
keys outside `MARS_KEYS`), renames `param`/`levelist`, and defers to the raw
lookup. -/
def XArrayMetadata.metaGet (m : XArrayMetadata) (key : String) (raiseOnMissing : Bool)
    (default : Value) : Except Err Value :=
  if key.startsWith "mars." then
    let k := key.drop 5
    if MARS_KEYS.contains k then
      rawGet m.d (keyName k) raiseOnMissing default
    else if raiseOnMissing then
      .error (.keyError s!"Invalid key {k} in namespace=mars")
    else
      .ok default
  else
    rawGet m.d (keyName key) raiseOnMissing default

/-- `self.get(key, default)`: the non-raising lookup (never an exception). -/
def XArrayMetadata.mget (m : XArrayMetadata) (key : String) (default : Value) : Value :=
  match m.metaGet key false default with
  | .ok v => v
  | .error _ => default

/-- `self[key]`: the raising lookup. -/
def XArrayMetadata.getItem (m : XArrayMetadata) (key : String) : Except Err Value :=
  m.metaGet key true .vNone

/-- `XArrayMetadata.override(*args, **kwargs)`: returns `None` and leaves the
metadata untouched (the unchanged object is returned as the second
component to make the absence of mutation explicit). -/
def XArrayMetadata.override (m : XArrayMetadata) (args : List Value) (kwargs : Dict) :
    Option XArrayMetadata × XArrayMetadata :=
  (none, m)

/-- The `XArrayMetadata.geography` property, with the mutation of the
memo field `self._geo` made explicit by returning the updated object. -/
def XArrayMetadata.geography (m : XArrayMetadata) :
    XArrayFieldGeography × XArrayMetadata :=
  match m._geo with
  | some g => (g, m)
  | none =>
      let g := XArrayFieldGeography.make m._field
      (g, { m with _geo := some g })

/-- `XArrayMetadata._as_mars()`: the renamed view; the subscript lookups
propagate a key error when a key is absent, the `get` lookups never do. -/
def XArrayMetadata._as_mars (m : XArrayMetadata) : Except Err Dict := do
  let param ← m.getItem "variable"
  let step := m.mget "step" .vNone
  let levelist ← m.getItem "level"
  let levtype ← m.getItem "levtype"
  let date := m.mget "date" .vNone
  let time := m.mget "time" .vNone
  .ok [("param", param), ("step", step), ("levelist", levelist),
       ("levtype", levtype), ("number", .vNone), ("date", date), ("time", time)]

/-- The `namespace` argument of `as_namespace`: `None`, a string, or a value
of any other type. -/
inductive NamespaceArg where
  | noneArg
  | str (s : String)
  | other (typeName : String)
  deriving DecidableEq, Repr

/-- `XArrayMetadata.as_namespace(namespace)`: a type error for a non-string,
non-`None` argument; the raw mapping for `default`/`""`/`None`; the mars view
for `mars`; and the implicit Python `None` (no view) for any other string. -/
def XArrayMetadata.as_namespace (m : XArrayMetadata) (ns : NamespaceArg) :
    Except Err (Option Dict) :=
  match ns with
  | .other _ => .error (.typeError "namespace must be a str or None")
  | .noneArg => .ok (some m.d)
  | .str s =>
      if s = "default" ∨ s = "" then .ok (some m.d)
      else if s = "mars" then (m._as_mars).map some
      else .ok none

/-- `XArrayMetadata._valid_datetime()`: `to_datetime(self.time)` when
`self.time` is set, otherwise `None`. -/
def XArrayMetadata._valid_datetime (m : XArrayMetadata) : Option Int :=
  m.time.map to_datetime

/-- `XArrayMetadata._base_datetime()`: the valid datetime minus
`timedelta(hours=self.get("hour", 0))` when the valid datetime is present,
otherwise `None`; a non-numeric `hour` value would make `timedelta` raise a
type error. -/
def XArrayMetadata._base_datetime (m : XArrayMetadata) : Except Err (Option Int) :=
  match m._valid_datetime with
  | none => .ok none
  | some v =>
      match m.mget "hour" (.vInt 0) with
      | .vInt h => .ok (some (v - 3600 * h))
      | _ => .error (.typeError "unsupported type for timedelta hours")

/-! ## Concrete instances used by witnesses and counterexamples -/

/-- A data array with no attributes. -/
def daEmpty : DataArray := ⟨[]⟩

/-- A dataset with no variables, no `forecast_reference_time` and no bounding
boxes. -/
def dsEmpty : Dataset := ⟨[], none, []⟩

/-- A plain field: no slices, no non-dimension coordinates. -/
def fPlain : XArrayField := ⟨dsEmpty, daEmpty, "t2m", [], []⟩

/-- A metadata literal with an empty mapping and no memoized geography. -/
def dfltXMeta : XArrayMetadata := ⟨[], none, fPlain, none⟩

/-- Junk field used only as the default of guarded list indexing. -/
def dfltField : ArrayField := ⟨.scalar 0, none⟩

deriving instance DecidableEq for Except

/-- A 2 by 3 array. -/
def aW : Arr :=
  .nd [.nd [.scalar 1, .scalar 2, .scalar 3], .nd [.scalar 4, .scalar 5, .scalar 6]]

/-- A 3 by 2 array. -/
def aB : Arr :=
  .nd [.nd [.scalar 1, .scalar 2], .nd [.scalar 3, .scalar 4], .nd [.scalar 5, .scalar 6]]

/-- A metadata object whose geography declares a 2 by 3 grid. -/
def mW : AMeta := ⟨[2, 3], [], []⟩

/-- A metadata object whose geography declares a flat 2-point grid. -/
def mW2 : AMeta := ⟨[2], [("param", .vStr "msl")], []⟩

/-- A 2-point vector. -/
def a1 : Arr := .nd [.scalar 1, .scalar 2]

/-- Another 2-point vector. -/
def a2 : Arr := .nd [.scalar 3, .scalar 4]

/-- A dataset holding one grid-mapping variable named `crs`. -/
def dsCrs : Dataset :=
  ⟨[("crs", ⟨[("grid_mapping_name", .vStr "latitude_longitude")]⟩)], none, []⟩

/-- A geography whose data array names `crs` as its grid mapping. -/
def gGood : XArrayFieldGeography :=
  ⟨⟨[("grid_mapping", .vStr "crs")]⟩, dsCrs, 10, 0, 0, 10⟩

/-- A geography whose data array carries no `grid_mapping` attribute. -/
def gBad : XArrayFieldGeography := ⟨daEmpty, dsEmpty, 0, 0, 0, 0⟩

/-- A field carrying one pressure-level slice. -/
def fLev : XArrayField :=
  ⟨dsEmpty, daEmpty, "t", [.level "pressure" (.vInt 850)], []⟩

/-- The metadata constructed from `fLev`. -/
def m10 : XArrayMetadata :=
  match XArrayMetadata.mk? (.xarray fLev) with
  | .ok m => m
  | .error _ => dfltXMeta

/-- The metadata constructed from `fPlain`. -/
def m4 : XArrayMetadata :=
  match XArrayMetadata.mk? (.xarray fPlain) with
  | .ok m => m
  | .error _ => dfltXMeta

/-- A dataset whose `forecast_reference_time` data variable holds the epoch. -/
def ds5 : Dataset := ⟨[], some 0, []⟩

/-- A field whose `time` coordinate is 6 hours past the forecast reference
time of its dataset, so its constructed metadata carries `step = 6`. -/
def f5 : XArrayField := ⟨ds5, daEmpty, "msl", [], [("time", 21600)]⟩

/-- The metadata constructed from `f5`. -/
def m5 : XArrayMetadata :=
  match XArrayMetadata.mk? (.xarray f5) with
  | .ok m => m
  | .error _ => dfltXMeta

/-! ## Helper lemmas -/

theorem dictGet_dictSet_self (d : Dict) (k : String) (v : Value) :
    dictGet (dictSet d k v) k = some v := by
  induction d with
  | nil => simp [dictGet, dictSet, alistGet]
  | cons p rest ih =>
      obtain ⟨k0, v0⟩ := p
      by_cases h : k0 = k
      · simp [dictGet, dictSet, alistGet, h]
      · simpa [dictGet, dictSet, alistGet, h] using ih

theorem dictGet_dictSet_ne (d : Dict) (k k2 : String) (v : Value) (h : k ≠ k2) :
    dictGet (dictSet d k v) k2 = dictGet d k2 := by
  induction d with
  | nil => simp [dictGet, dictSet, alistGet, h]
  | cons p rest ih =>
      obtain ⟨k0, v0⟩ := p
      by_cases h0 : k0 = k
      · subst h0
        simp [dictGet, dictSet, alistGet, h]
      · by_cases h2 : k0 = k2
        · subst h2
          simp [dictGet, dictSet, alistGet, h0]
        · simpa [dictGet, dictSet, alistGet, h0, h2] using ih

theorem dictGet_mkDictFinal_level (d : Dict) (vn : String) (l : Value) (lt : String) :
    dictGet (mkDictFinal d vn l lt) "level" = some l := by
  unfold mkDictFinal
  rw [dictGet_dictSet_ne _ _ _ _ (by decide), dictGet_dictSet_self]

theorem dictGet_mkDictFinal_levtype (d : Dict) (vn : String) (l : Value) (lt : String) :
    dictGet (mkDictFinal d vn l lt) "levtype" = some (.vStr lt) := by
  unfold mkDictFinal
  rw [dictGet_dictSet_self]

theorem applySlices_snd_none (ss : List Slice) :
    lastLevel ss = none →
    ∀ (t : Option Int) (l : Value) (lt : String),
      (applySlices (t, l, lt) ss).2 = (l, lt) := by
  induction ss with
  | nil => intro _ t l lt; rfl
  | cons s rest ih =>
      intro h t l lt
      cases s with
      | plain nm v =>
          simp only [lastLevel] at h
          simp only [applySlices]
          exact ih h t l lt
      | time v =>
          simp only [lastLevel] at h
          simp only [applySlices]
          exact ih h (some v) l lt
      | level nm v =>
          exact absurd h (by simp [lastLevel])

theorem applySlices_snd_some (ss : List Slice) (nm : String) (v : Value) :
    lastLevel ss = some (nm, v) →
    ∀ (t : Option Int) (l : Value) (lt : String),
      (applySlices (t, l, lt) ss).2 = (v, mapLevName nm) := by
  induction ss with
  | nil => intro h; exact absurd h (by simp [lastLevel])
  | cons s rest ih =>
      intro h t l lt
      cases s with
      | plain nm0 v0 =>
          simp only [lastLevel] at h
          simp only [applySlices]
          exact ih h t l lt
      | time v0 =>
          simp only [lastLevel] at h
          simp only [applySlices]
          exact ih h (some v0) l lt
      | level nm0 v0 =>
          simp only [lastLevel] at h
          simp only [applySlices]
          cases hr : lastLevel rest with
          | some p =>
              rw [hr] at h
              have hp : p = (nm, v) := by
                simpa [hr] using h
              subst hp
              exact ih hr t v0 (mapLevName nm0)
          | none =>
              rw [hr] at h
              have hnm : nm0 = nm ∧ v0 = v := by
                simpa using h
              obtain ⟨rfl, rfl⟩ := hnm
              exact applySlices_snd_none rest hr t v0 (mapLevName nm0)

theorem buildFields_length (md : List AMeta) (arrs : List Arr) :
    ∀ i, (buildFields md i arrs).length = arrs.length := by
  induction arrs with
  | nil => intro i; rfl
  | cons a rest ih => intro i; simp [buildFields, ih]

theorem buildFields_values (md : List AMeta) (arrs : List Arr) :
    ∀ i j, j < arrs.length →
      ((buildFields md i arrs).getD j dfltField).values = arrs.getD j (Arr.scalar 0) := by
  induction arrs with
  | nil => intro i j h; exact absurd h (by simp)
  | cons a rest ih =>
      intro i j h
      cases j with
      | zero => rfl
      | succ j2 =>
          simp only [buildFields, List.getD_cons_succ]
          exact ih (i + 1) j2 (by simpa using h)

/-- The dictionary every successful `XArrayMetadata.__init__` hands to
`RawMetadata.__init__` ends with the `variable` / `level` / `levtype`
updates, the latter two computed by the slice loop. -/
theorem mk_ok_dict (f : XArrayField) (m : XArrayMetadata)
    (h : XArrayMetadata.mk? (.xarray f) = .ok m) :
    ∃ d0, m.d = mkDictFinal d0 f.varName
      (applySlices (initTime f, Value.vNone, "sfc") f.slices).2.1
      (applySlices (initTime f, Value.vNone, "sfc") f.slices).2.2 := by
  simp only [XArrayMetadata.mk?] at h
  split at h
  · cases h
    exact ⟨_, rfl⟩
  · split at h
    · cases h
      exact ⟨_, rfl⟩
    · split at h
      · cases h
        exact ⟨_, rfl⟩
      · exact absurd h (by simp)

/-! ## Claims -/

/-- C1: for every non-list array argument and metadata list, when the leading
axis length of the array differs from the number of metadata objects,
`from_array` raises a value error — except when there is exactly one metadata
object and the full array shape matches its declared grid shape directly or
as a flattened element count, in which case `from_array` returns a 1-element
field collection wrapping the whole array as one field. -/
theorem from_array_single_mismatch (a : Arr) (ms : List AMeta) (n : Nat)
    (hn : a.shape.head? = some n) (hne : n ≠ ms.length) :
    (∀ m0, ms = [m0] → shape_match a.shape m0.gshape = true →
        from_array (.arr a) (.many ms) = .ok [mkArrayField a m0])
  ∧ ((∀ m0, ms = [m0] → shape_match a.shape m0.gshape = false) →
        from_array (.arr a) (.many ms) =
          .error (.valueError (dimMismatchMsg n ms.length))) := by
  constructor
  · rintro m0 rfl hsm
    have hne1 : n ≠ 1 := by simpa using hne
    simp [from_array, metaToList, hn, hne1, hsm, stackOne, Arr.leading,
      buildFields, pickMeta]
  · intro hno
    by_cases h1 : ms.length = 1
    · obtain ⟨m0, rfl⟩ := List.length_eq_one.mp h1
      have hsm := hno m0 rfl
      have hne1 : n ≠ 1 := by simpa using hne
      simp [from_array, metaToList, hn, hne1, hsm]
    · simp [from_array, metaToList, hn, hne, h1]

/-- Witness for C1: a 2 by 3 array with one metadata declaring a 2 by 3 grid
is wrapped whole; a 3 by 2 array with two metadata objects is a value
error. -/
theorem from_array_single_mismatch_witness :
    (aW.shape.head? = some 2 ∧ 2 ≠ ([mW] : List AMeta).length
      ∧ shape_match aW.shape mW.gshape = true)
  ∧ from_array (.arr aW) (.many [mW]) = .ok [mkArrayField aW mW]
  ∧ from_array (.arr aB) (.many [mW, mW2]) =
      .error (.valueError (dimMismatchMsg 3 2)) := by
  refine ⟨⟨rfl, by decide, rfl⟩, ?_, ?_⟩
  · exact (from_array_single_mismatch aW [mW] 2 rfl (by decide)).1 mW rfl rfl
  · exact (from_array_single_mismatch aB [mW, mW2] 3 rfl (by decide)).2
      (by intro m0 h; simp at h)

/-- C2: for every list of n arrays and list of n metadata objects (n at least
1), `from_array` returns a field collection of exactly n fields, in input
order, whose j-th field values equal the j-th input array. -/
theorem from_array_list_order_and_values (arrs : List Arr) (ms : List AMeta)
    (hlen : arrs.length = ms.length) (hne : arrs ≠ []) :
    ∃ fs, from_array (.list arrs) (.many ms) = .ok fs
      ∧ fs.length = arrs.length
      ∧ ∀ j, j < arrs.length →
          (fs.getD j dfltField).values = arrs.getD j (Arr.scalar 0) := by
  refine ⟨buildFields ms 0 arrs, ?_, buildFields_length ms arrs 0,
    fun j hj => buildFields_values ms arrs 0 j hj⟩
  have h0 : ¬ arrs.length = 0 := by
    simpa [List.length_eq_zero] using hne
  have hms : ¬ ms = [] := fun hemp => h0 (by rw [hlen, hemp]; rfl)
  simp [from_array, metaToList, h0, hms, hlen]

/-- Witness for C2: two arrays and two metadata objects give two fields whose
values are the input arrays in order. -/
theorem from_array_list_order_and_values_witness :
    (([a1, a2] : List Arr).length = ([mW, mW2] : List AMeta).length
      ∧ ([a1, a2] : List Arr) ≠ [])
  ∧ ∃ fs, from_array (.list [a1, a2]) (.many [mW, mW2]) = .ok fs
      ∧ fs.length = ([a1, a2] : List Arr).length
      ∧ ∀ j, j < ([a1, a2] : List Arr).length →
          (fs.getD j dfltField).values = [a1, a2].getD j (Arr.scalar 0) :=
  ⟨⟨rfl, by simp⟩, from_array_list_order_and_values [a1, a2] [mW, mW2] rfl (by simp)⟩

/-- C3: for every call to `from_array` with a list of arrays, an empty list
or a list whose length differs from the number of metadata objects is a
value error, and no field collection is produced. -/
theorem from_array_list_errors (arrs : List Arr) (mi : MetaInput)
    (h : arrs = [] ∨ arrs.length ≠ (metaToList mi).length) :
    ∃ msg, from_array (.list arrs) mi = .error (.valueError msg) := by
  rcases h with rfl | hne
  · exact ⟨"array must not be empty", rfl⟩
  · by_cases h0 : arrs.length = 0
    · refine ⟨"array must not be empty", ?_⟩
      simp [from_array, h0]
    · refine ⟨lenMismatchMsg arrs.length (metaToList mi).length, ?_⟩
      simp [from_array, h0, hne]

/-- Witness for C3: the empty array list with one metadata object is a value
error. -/
theorem from_array_list_errors_witness :
    (([] : List Arr) = [] ∨ ([] : List Arr).length ≠ (metaToList (.many [mW])).length)
  ∧ ∃ msg, from_array (.list []) (.many [mW]) = .error (.valueError msg) :=
  ⟨Or.inl rfl, from_array_list_errors [] (.many [mW]) (Or.inl rfl)⟩

/-- Counterexample for C4: the metadata built from `fPlain` answers the
unsupported namespace name `ls` with no view at all (Python `None`), not with
a lookup error. -/
theorem as_namespace_unsupported_counterexample :
    XArrayMetadata.mk? (.xarray fPlain) = .ok m4
  ∧ m4.as_namespace (.str "ls") = .ok none :=
  ⟨rfl, rfl⟩

/-- C4 (amended): for every metadata object and every namespace name other
than `default`, the empty string and `mars`, requesting that namespace view
returns no view (Python `None`) rather than raising. -/
theorem as_namespace_unsupported_returns_none (m : XArrayMetadata) (s : String)
    (h1 : s ≠ "default") (h2 : s ≠ "") (h3 : s ≠ "mars") :
    m.as_namespace (.str s) = .ok none := by
  simp [XArrayMetadata.as_namespace, h1, h2, h3]

/-- Witness for C4 (amended) at the namespace name `position`. -/
theorem as_namespace_unsupported_returns_none_witness :
    (("position" : String) ≠ "default" ∧ ("position" : String) ≠ ""
      ∧ ("position" : String) ≠ "mars")
  ∧ dfltXMeta.as_namespace (.str "position") = .ok none :=
  ⟨⟨by decide, by decide, by decide⟩,
    as_namespace_unsupported_returns_none dfltXMeta "position"
      (by decide) (by decide) (by decide)⟩

/-- Counterexample for C5: the metadata built from `f5` has forecast step 6
hours and valid datetime 21600, yet `_base_datetime` returns the valid
datetime itself (it subtracts the `hour` key, which is absent, not the
step), not the valid datetime minus the step. -/
theorem base_datetime_counterexample :
    XArrayMetadata.mk? (.xarray f5) = .ok m5
  ∧ m5.mget "step" .vNone = .vInt 6
  ∧ m5._valid_datetime = some 21600
  ∧ m5._base_datetime = .ok (some 21600)
  ∧ m5._base_datetime ≠ .ok (some (21600 - 6 * 3600)) :=
  ⟨rfl, rfl, rfl, rfl, by decide⟩

/-- C5 (amended): for every metadata whose valid datetime is present,
`_base_datetime()` returns the valid datetime minus the number of hours
stored under the `hour` metadata key (0 when that key is absent); when the
valid datetime is absent, `_base_datetime()` returns nothing. -/
theorem base_datetime_hour_offset (m : XArrayMetadata) (h : Int)
    (hh : m.mget "hour" (.vInt 0) = .vInt h) :
    (m._valid_datetime = none → m._base_datetime = .ok none)
  ∧ ∀ v, m._valid_datetime = some v →
      m._base_datetime = .ok (some (v - 3600 * h)) := by
  constructor
  · intro h0
    unfold XArrayMetadata._base_datetime
    rw [h0]
  · intro v hv
    unfold XArrayMetadata._base_datetime
    rw [hv, hh]

/-- Witness for C5 (amended) at the metadata built from `f5`, whose `hour`
key is absent. -/
theorem base_datetime_hour_offset_witness :
    (m5.mget "hour" (.vInt 0) = .vInt 0)
  ∧ m5._base_datetime = .ok (some (21600 - 3600 * 0)) :=
  ⟨rfl, (base_datetime_hour_offset m5 0 rfl).2 21600 rfl⟩

/-- C6: for every derived metadata object and every argument list, calling
`override(...)` returns nothing and leaves the metadata object unchanged. -/
theorem override_no_modified_copy (m : XArrayMetadata) (args : List Value)
    (kwargs : Dict) :
    m.override args kwargs = (none, m) :=
  rfl

/-- C7: for every field whose data-array attributes contain no `grid_mapping`
key, requesting the projection of its Geography raises an attribute error,
and in a collection the error is confined to that field: every other field
keeps exactly the projection result it has on its own. -/
theorem projection_missing_grid_mapping (g : XArrayFieldGeography)
    (h : dictGet g.data_array.attrs "grid_mapping" = none)
    (pre post : List XArrayFieldGeography) :
    g.projection = .error (.attributeError gridMappingErrMsg)
  ∧ projections (pre ++ g :: post) =
      projections pre ++ .error (.attributeError gridMappingErrMsg) :: projections post := by
  have h1 : g.projection = .error (.attributeError gridMappingErrMsg) := by
    unfold XArrayFieldGeography.projection XArrayFieldGeography.grid_mapping
    rw [h]
    rfl
  exact ⟨h1, by simp [projections, h1]⟩

/-- Witness for C7: a collection of a CF-compliant geography followed by one
without `grid_mapping`. -/
theorem projection_missing_grid_mapping_witness :
    (dictGet gBad.data_array.attrs "grid_mapping" = none)
  ∧ projections [gGood, gBad] =
      projections [gGood]
        ++ .error (.attributeError gridMappingErrMsg) :: projections [] :=
  ⟨rfl, (projection_missing_grid_mapping gBad rfl [gGood] []).2⟩

/-- C8: for every metadata with no memoized geography yet, the first request
constructs the Geography from the wrapped field and memoizes it, and a
second request returns the very same object with the state unchanged. -/
theorem geography_memoized (m : XArrayMetadata) (h : m._geo = none) :
    (m.geography).1 = XArrayFieldGeography.make m._field
  ∧ (m.geography).2._geo = some (m.geography).1
  ∧ (m.geography).2.geography = ((m.geography).1, (m.geography).2) := by
  simp [XArrayMetadata.geography, h]

/-- Witness for C8 at a freshly built metadata literal. -/
theorem geography_memoized_witness :
    (dfltXMeta._geo = none)
  ∧ (dfltXMeta.geography).2.geography
      = ((dfltXMeta.geography).1, (dfltXMeta.geography).2) :=
  ⟨rfl, (geography_memoized dfltXMeta rfl).2.2⟩

/-- C9: constructing an `XArrayMetadata` (or `NetCDFMetadata`) from anything
other than an `XArrayField` raises a type error and produces no metadata;
construction succeeds only on `XArrayField` inputs. -/
theorem metadata_init_type_guard :
    (∀ t, XArrayMetadata.mk? (.other t) = .error (.typeError (typeErrMsg t)))
  ∧ ∀ inp, (XArrayMetadata.mk? inp).isOk = true → ∃ f, inp = .xarray f := by
  constructor
  · intro t
    rfl
  · intro inp h
    cases inp with
    | xarray f => exact ⟨f, rfl⟩
    | other t => simp [XArrayMetadata.mk?, Except.isOk, Except.toBool] at h

/-- Witness for C9: an `int` argument errors; `fPlain` constructs. -/
theorem metadata_init_type_guard_witness :
    XArrayMetadata.mk? (.other "int") = .error (.typeError (typeErrMsg "int"))
  ∧ ∃ f, FieldInput.xarray fPlain = .xarray f :=
  ⟨metadata_init_type_guard.1 "int",
    metadata_init_type_guard.2 (.xarray fPlain) (by decide)⟩

/-- C10: every successfully constructed metadata defines the keys `level`
and `levtype`; with no level slice they are `None` and `sfc`; with a level
slice they are that slice's value and name, the name `pressure` mapped to
`pl`. -/
theorem metadata_level_levtype (f : XArrayField) (m : XArrayMetadata)
    (h : XArrayMetadata.mk? (.xarray f) = .ok m) :
    (dictGet m.d "level").isSome = true
  ∧ (dictGet m.d "levtype").isSome = true
  ∧ (lastLevel f.slices = none →
      dictGet m.d "level" = some .vNone
        ∧ dictGet m.d "levtype" = some (.vStr "sfc"))
  ∧ ∀ nm v, lastLevel f.slices = some (nm, v) →
      dictGet m.d "level" = some v
        ∧ dictGet m.d "levtype" = some (.vStr (mapLevName nm)) := by
  obtain ⟨d0, hd⟩ := mk_ok_dict f m h
  rw [hd]
  refine ⟨?_, ?_, ?_, ?_⟩
  · rw [dictGet_mkDictFinal_level]
    rfl
  · rw [dictGet_mkDictFinal_levtype]
    rfl
  · intro h0
    have hs := applySlices_snd_none f.slices h0 (initTime f) Value.vNone "sfc"
    exact ⟨by rw [dictGet_mkDictFinal_level, hs],
      by rw [dictGet_mkDictFinal_levtype, hs]⟩
  · intro nm v h0
    have hs := applySlices_snd_some f.slices nm v h0 (initTime f) Value.vNone "sfc"
    exact ⟨by rw [dictGet_mkDictFinal_level, hs],
      by rw [dictGet_mkDictFinal_levtype, hs]⟩

/-- Witness for C10: the metadata of a field with one pressure-850 level
slice maps `level` to 850 and `levtype` to `pl`. -/
theorem metadata_level_levtype_witness :
    XArrayMetadata.mk? (.xarray fLev) = .ok m10
  ∧ dictGet m10.d "level" = some (.vInt 850)
  ∧ dictGet m10.d "levtype" = some (.vStr "pl") := by
  have h : XArrayMetadata.mk? (.xarray fLev) = .ok m10 := rfl
  have hall := metadata_level_levtype fLev m10 h
  have hsome := hall.2.2.2 "pressure" (.vInt 850) rfl
  exact ⟨h, hsome.1, by simpa [mapLevName] using hsome.2⟩
